import Mathlib

/-!
Verification of the AI-provider gateway and structured generation services of
the TextGen repository.  The definitions below are a shallow embedding of the
TypeScript service module (callAI, generateOutlines, generateChapterDetails,
generateChapterContent) together with the pieces of JavaScript string /
JSON.parse semantics the services rely on.
-/

set_option maxRecDepth 200000

/-! ## JavaScript string primitives -/

/-- Boolean test that `pat` is a prefix of `s` (character lists). -/
def isPrefixList : List Char → List Char → Bool
  | [], _ => true
  | _ :: _, [] => false
  | p :: ps, c :: cs => p == c && isPrefixList ps cs

/-- Boolean test that `pat` occurs as a contiguous substring of `s`,
mirroring JavaScript `String.prototype.includes`. -/
def occursB (pat : List Char) : List Char → Bool
  | [] => pat.isEmpty
  | c :: cs => isPrefixList pat (c :: cs) || occursB pat cs

/-- JavaScript `url.includes(pat)`. -/
def strContains (s pat : String) : Bool := occursB pat.data s.data

/-- The JavaScript whitespace class `\s` (also the class used by
`String.prototype.trim`). -/
def jsWhite (c : Char) : Bool :=
  c == ' ' || c == '\t' || c == '\n' || c == '\r' || c.toNat == 0x0B ||
  c.toNat == 0x0C || c.toNat == 0xA0 || c.toNat == 0x1680 ||
  (0x2000 ≤ c.toNat && c.toNat ≤ 0x200A) ||
  c.toNat == 0x2028 || c.toNat == 0x2029 || c.toNat == 0x202F ||
  c.toNat == 0x205F || c.toNat == 0x3000 || c.toNat == 0xFEFF

/-- Trim JS whitespace from both ends of a character list. -/
def trimList (l : List Char) : List Char :=
  ((l.dropWhile jsWhite).reverse.dropWhile jsWhite).reverse

/-- JavaScript `s.trim()`. -/
def jsTrim (s : String) : String := ⟨trimList s.data⟩

/-- JavaScript `s.split('\n')` on character lists: `n` separators give
`n + 1` pieces. -/
def splitOnNl : List Char → List (List Char)
  | [] => [[]]
  | c :: rest =>
    if c == '\n' then [] :: splitOnNl rest
    else
      match splitOnNl rest with
      | l :: ls => (c :: l) :: ls
      | [] => [[c]]

/-- The lines of a string, as JavaScript `text.split('\n')` produces them. -/
def jsLines (s : String) : List String := (splitOnNl s.data).map String.mk

/-- One left-to-right pass removing every (non-overlapping, earliest-first)
occurrence of the pattern `p :: ps`, with explicit fuel so that the kernel
can evaluate it.  This is JavaScript `s.replace(/pat/g, '')` for a literal
pattern. -/
def removeAllF (p : Char) (ps : List Char) : Nat → List Char → List Char
  | 0, s => s
  | _ + 1, [] => []
  | fuel + 1, c :: cs =>
    if c == p && isPrefixList ps cs then removeAllF p ps fuel (cs.drop ps.length)
    else c :: removeAllF p ps fuel cs

/-- `removeAllF` with always-sufficient fuel. -/
def removeAllL (p : Char) (ps : List Char) (s : List Char) : List Char :=
  removeAllF p ps (s.length + 1) s

/-- JavaScript `s.replace(/pat/g, '')` for a literal pattern `pat`. -/
def jsRemoveAll (pat s : String) : String :=
  match pat.data with
  | [] => s
  | p :: ps => ⟨removeAllL p ps s.data⟩

/-- JavaScript `url.replace(/\/$/, '')`: strip exactly one trailing
slash when present. -/
def stripTrailingSlash (s : String) : String :=
  if s.data.getLast? = some '/' then ⟨s.data.dropLast⟩ else s

/-! ## Basic lemmas about the string primitives -/

theorem isPrefixList_append {q s : List Char} (r : List Char)
    (h : isPrefixList q s = true) : isPrefixList q (s ++ r) = true := by
  induction q generalizing s with
  | nil => simp [isPrefixList]
  | cons a q ih =>
    cases s with
    | nil => simp [isPrefixList] at h
    | cons c cs =>
      simp only [isPrefixList, Bool.and_eq_true] at h ⊢
      exact ⟨h.1, ih h.2⟩

theorem isPrefixList_of_append {a b s : List Char}
    (h : isPrefixList (a ++ b) s = true) : isPrefixList a s = true := by
  induction a generalizing s with
  | nil => simp [isPrefixList]
  | cons x a ih =>
    cases s with
    | nil => simp [isPrefixList] at h
    | cons c cs =>
      simp only [List.cons_append, isPrefixList, Bool.and_eq_true] at h ⊢
      exact ⟨h.1, ih h.2⟩

theorem occursB_cons {pat cs : List Char} (c : Char)
    (h : occursB pat cs = true) : occursB pat (c :: cs) = true := by
  simp [occursB, h]

theorem occursB_append_left {pat u : List Char} (a : List Char)
    (h : occursB pat u = true) : occursB pat (a ++ u) = true := by
  induction a with
  | nil => simpa using h
  | cons x a ih => exact occursB_cons x ih

theorem occursB_append_right {pat t : List Char} (b : List Char)
    (h : occursB pat t = true) : occursB pat (t ++ b) = true := by
  induction t with
  | nil =>
    simp only [occursB, List.isEmpty_iff] at h
    subst h
    cases b <;> simp [occursB, isPrefixList]
  | cons c cs ih =>
    simp only [occursB, Bool.or_eq_true] at h
    rcases h with h | h
    · simp only [List.cons_append, occursB, Bool.or_eq_true]
      exact Or.inl (isPrefixList_append b h)
    · exact occursB_cons c (ih h)

theorem occursB_prefix_pat {a s : List Char} (b : List Char)
    (h : occursB a s = false) : occursB (a ++ b) s = false := by
  induction s with
  | nil =>
    simp only [occursB] at h ⊢
    cases a with
    | nil => simp at h
    | cons x a => simp
  | cons c cs ih =>
    simp only [occursB, Bool.or_eq_false_iff] at h ⊢
    refine ⟨?_, ih h.2⟩
    cases hp : isPrefixList (a ++ b) (c :: cs) with
    | false => rfl
    | true => exact absurd (isPrefixList_of_append hp) (by simp [h.1])

theorem isPrefixList_length {q s : List Char} (h : isPrefixList q s = true) :
    q.length ≤ s.length := by
  induction q generalizing s with
  | nil => simp
  | cons a q ih =>
    cases s with
    | nil => simp [isPrefixList] at h
    | cons c cs =>
      simp only [isPrefixList, Bool.and_eq_true] at h
      simpa using ih h.2

theorem removeAllF_fuel (p : Char) (ps : List Char) :
    ∀ (f₁ f₂ : Nat) (s : List Char), s.length < f₁ → s.length < f₂ →
      removeAllF p ps f₁ s = removeAllF p ps f₂ s := by
  intro f₁
  induction f₁ with
  | zero => intro f₂ s h1 _; omega
  | succ f ih =>
    intro f₂ s h1 h2
    cases f₂ with
    | zero => omega
    | succ g =>
      cases s with
      | nil => rfl
      | cons c cs =>
        simp only [removeAllF]
        by_cases hc : (c == p && isPrefixList ps cs) = true
        · rw [if_pos hc, if_pos hc]
          apply ih
          · have := List.length_drop ps.length cs
            simp only [List.length_cons] at h1
            omega
          · have := List.length_drop ps.length cs
            simp only [List.length_cons] at h2
            omega
        · rw [if_neg hc, if_neg hc]
          have hcs1 : cs.length < f := by simp only [List.length_cons] at h1; omega
          have hcs2 : cs.length < g := by simp only [List.length_cons] at h2; omega
          rw [ih g cs hcs1 hcs2]

theorem removeAllL_nil (p : Char) (ps : List Char) : removeAllL p ps [] = [] := rfl

theorem removeAllL_cons (p : Char) (ps : List Char) (c : Char) (cs : List Char) :
    removeAllL p ps (c :: cs) =
      if c == p && isPrefixList ps cs then removeAllL p ps (cs.drop ps.length)
      else c :: removeAllL p ps cs := by
  show removeAllF p ps (cs.length + 1 + 1) (c :: cs) = _
  simp only [removeAllF]
  by_cases hc : (c == p && isPrefixList ps cs) = true
  · rw [if_pos hc, if_pos hc]
    apply removeAllF_fuel
    · have := List.length_drop ps.length cs
      omega
    · omega
  · rw [if_neg hc, if_neg hc]
    rfl

theorem removeAllL_id_of_not_occurs (p : Char) (ps : List Char) :
    ∀ (n : Nat) (s : List Char), s.length ≤ n → occursB (p :: ps) s = false →
      removeAllL p ps s = s := by
  intro n
  induction n with
  | zero =>
    intro s hs _
    cases s with
    | nil => rfl
    | cons c cs => simp at hs
  | succ n ih =>
    intro s hs h
    cases s with
    | nil => rfl
    | cons c cs =>
      simp only [occursB, Bool.or_eq_false_iff] at h
      have hcond : (c == p && isPrefixList ps cs) = false := by
        by_cases hpc : c = p
        · subst hpc
          simpa [isPrefixList] using h.1
        · simp [beq_iff_eq, hpc]
      rw [removeAllL_cons, if_neg (by simp [hcond])]
      have hcs : cs.length ≤ n := by simp only [List.length_cons] at hs; omega
      rw [ih cs hcs h.2]

theorem isPrefixList_append_sep :
    ∀ (q xs ys : List Char) (c : Char), c ∉ q →
      isPrefixList q (xs ++ c :: ys) = true →
      isPrefixList q xs = true ∧ q.length ≤ xs.length := by
  intro q
  induction q with
  | nil => intro xs ys c _ _; exact ⟨rfl, by simp⟩
  | cons a q ih =>
    intro xs ys c hc h
    cases xs with
    | nil =>
      exfalso
      simp only [List.nil_append, isPrefixList, Bool.and_eq_true, beq_iff_eq] at h
      exact hc (h.1 ▸ List.mem_cons_self a q)
    | cons x xs =>
      simp only [List.cons_append, isPrefixList, Bool.and_eq_true] at h ⊢
      have hc' : c ∉ q := fun hm => hc (List.mem_cons_of_mem a hm)
      obtain ⟨h1, h2⟩ := ih xs ys c hc' h.2
      exact ⟨⟨h.1, h1⟩, by simpa using h2⟩

theorem removeAllL_cons_sep (p : Char) (ps : List Char) (c : Char) (ys : List Char)
    (hc : c ∉ p :: ps) :
    removeAllL p ps (c :: ys) = c :: removeAllL p ps ys := by
  have hcp : ¬(c = p) := fun h => hc (by simp [h])
  rw [removeAllL_cons, if_neg (by simp [beq_iff_eq, hcp])]

theorem removeAllL_append_sep (p : Char) (ps : List Char) (c : Char) (hc : c ∉ p :: ps) :
    ∀ (n : Nat) (xs ys : List Char), xs.length ≤ n →
      removeAllL p ps (xs ++ c :: ys) =
        removeAllL p ps xs ++ c :: removeAllL p ps ys := by
  intro n
  induction n with
  | zero =>
    intro xs ys hl
    cases xs with
    | nil => simpa using removeAllL_cons_sep p ps c ys hc
    | cons x xs => simp at hl
  | succ n ih =>
    intro xs ys hl
    cases xs with
    | nil => simpa using removeAllL_cons_sep p ps c ys hc
    | cons x xs =>
      have hc2 : c ∉ ps := fun hm => hc (List.mem_cons_of_mem p hm)
      have hxs : xs.length ≤ n := by simp only [List.length_cons] at hl; omega
      by_cases h2 : (x == p && isPrefixList ps xs) = true
      · have hpre : isPrefixList ps (xs ++ c :: ys) = true := by
          simp only [Bool.and_eq_true] at h2
          exact isPrefixList_append (c :: ys) h2.2
        have hlen : ps.length ≤ xs.length := by
          simp only [Bool.and_eq_true] at h2
          exact isPrefixList_length h2.2
        have h1 : (x == p && isPrefixList ps (xs ++ c :: ys)) = true := by
          simp only [Bool.and_eq_true] at h2 ⊢
          exact ⟨h2.1, hpre⟩
        rw [List.cons_append, removeAllL_cons, if_pos h1, removeAllL_cons, if_pos h2]
        rw [List.drop_append_of_le_length hlen]
        apply ih
        have := List.length_drop ps.length xs
        omega
      · have h1 : (x == p && isPrefixList ps (xs ++ c :: ys)) = false := by
          cases h1 : (x == p && isPrefixList ps (xs ++ c :: ys)) with
          | false => rfl
          | true =>
            exfalso
            apply h2
            simp only [Bool.and_eq_true] at h1 ⊢
            exact ⟨h1.1, (isPrefixList_append_sep ps xs ys c hc2 h1.2).1⟩
        rw [List.cons_append, removeAllL_cons, if_neg (by simp [h1]),
          removeAllL_cons, if_neg (by simp [(by simpa using h2 : (x == p && isPrefixList ps xs) = false)])]
        rw [ih xs ys hxs]
        rfl

/-- The backtick character. -/
def tick : Char := Char.ofNat 96

theorem removeAll_fence_core :
    ∀ (n : Nat) (s : List Char), s.length ≤ n →
      occursB [tick, tick, tick] (removeAllL tick [tick, tick] s) = false ∧
      (isPrefixList [tick, tick] s = false →
        isPrefixList [tick, tick] (removeAllL tick [tick, tick] s) = false) := by
  intro n
  induction n with
  | zero =>
    intro s hs
    cases s with
    | nil => exact ⟨rfl, fun _ => rfl⟩
    | cons c cs => simp at hs
  | succ n ih =>
    intro s hs
    cases s with
    | nil => exact ⟨rfl, fun _ => rfl⟩
    | cons c cs =>
      by_cases hcond : (c == tick && isPrefixList [tick, tick] cs) = true
      · rw [removeAllL_cons, if_pos hcond]
        have hlen : ((cs.drop 2).length ≤ n) := by
          have := List.length_drop 2 cs
          simp only [List.length_cons] at hs
          omega
        obtain ⟨ht, _⟩ := ih _ hlen
        refine ⟨ht, fun hpre => ?_⟩
        exfalso
        simp only [Bool.and_eq_true, beq_iff_eq] at hcond
        obtain ⟨hct, hcs⟩ := hcond
        cases cs with
        | nil => simp [isPrefixList] at hcs
        | cons d ds =>
          simp only [isPrefixList, Bool.and_eq_true, beq_iff_eq] at hcs
          simp [isPrefixList, hct, hcs.1, beq_iff_eq] at hpre
      · rw [removeAllL_cons, if_neg hcond]
        have hcs : cs.length ≤ n := by simp only [List.length_cons] at hs; omega
        obtain ⟨ht, hp⟩ := ih cs hcs
        have hsingle : isPrefixList [tick] cs = false →
            isPrefixList [tick] (removeAllL tick [tick, tick] cs) = false := by
          intro h1
          cases cs with
          | nil => rfl
          | cons d ds =>
            have hd : (tick == d) = false := by
              simp only [isPrefixList, Bool.and_true] at h1
              simpa using h1
            have hd2 : (d == tick) = false := by
              cases hdt : d == tick with
              | false => rfl
              | true =>
                rw [show d = tick from by simpa [beq_iff_eq] using hdt] at hd
                simp at hd
            rw [removeAllL_cons, if_neg (by simp [hd2])]
            simp [isPrefixList, hd]
        constructor
        · simp only [occursB, Bool.or_eq_false_iff]
          refine ⟨?_, ht⟩
          by_cases hct : c = tick
          · subst hct
            have h2 : isPrefixList [tick, tick] cs = false := by
              cases h' : isPrefixList [tick, tick] cs with
              | false => rfl
              | true => exact absurd (by simp [h']) hcond
            have h3 := hp h2
            simp [isPrefixList, h3]
          · have : (tick == c) = false := by
              cases h' : tick == c with
              | false => rfl
              | true =>
                have heq : tick = c := by simpa [beq_iff_eq] using h'
                exact absurd heq.symm hct
            simp [isPrefixList, this]
        · intro hpre
          by_cases hct : c = tick
          · subst hct
            have h1 : isPrefixList [tick] cs = false := by
              simpa [isPrefixList] using hpre
            have h2 := hsingle h1
            simp [isPrefixList, h2]
          · have : (tick == c) = false := by
              cases h' : tick == c with
              | false => rfl
              | true =>
                have heq : tick = c := by simpa [beq_iff_eq] using h'
                exact absurd heq.symm hct
            simp [isPrefixList, this]

/-- After one global removal pass of the three-backtick fence, the result
contains no three-backtick substring. -/
theorem occursB_triple_removeAll (s : List Char) :
    occursB [tick, tick, tick] (removeAllL tick [tick, tick] s) = false :=
  (removeAll_fence_core s.length s le_rfl).1

theorem dropWhile_idem (p : Char → Bool) (l : List Char) :
    (l.dropWhile p).dropWhile p = l.dropWhile p := by
  induction l with
  | nil => rfl
  | cons c cs ih =>
    rw [List.dropWhile_cons]
    by_cases hc : p c = true
    · rw [if_pos hc]; exact ih
    · rw [if_neg hc, List.dropWhile_cons, if_neg hc]

theorem dropWhile_head_false {p : Char → Bool} {l : List Char} {c : Char} {cs : List Char}
    (h : l.dropWhile p = c :: cs) : p c = false := by
  have := List.head?_dropWhile_not p l
  rw [h] at this
  simpa using this

theorem dropWhile_trimList (l : List Char) :
    (trimList l).dropWhile jsWhite = trimList l := by
  unfold trimList
  cases hm : l.dropWhile jsWhite with
  | nil => simp
  | cons x xs =>
    have hx : jsWhite x = false := dropWhile_head_false hm
    have hrev : (x :: xs).reverse = xs.reverse ++ [x] := by simp
    rw [hrev, List.dropWhile_append]
    by_cases he : (xs.reverse.dropWhile jsWhite).isEmpty = true
    · rw [if_pos he]
      simp [List.dropWhile_cons, hx]
    · rw [if_neg he]
      rw [List.reverse_append]
      simp only [List.reverse_cons, List.reverse_nil, List.nil_append, List.singleton_append]
      rw [List.dropWhile_cons, if_neg (by simp [hx])]

theorem trimList_idem (l : List Char) : trimList (trimList l) = trimList l := by
  conv_lhs => rw [trimList]
  rw [dropWhile_trimList]
  have : (trimList l).reverse.dropWhile jsWhite = (trimList l).reverse := by
    unfold trimList
    rw [List.reverse_reverse]
    exact dropWhile_idem jsWhite _
  rw [this, List.reverse_reverse]

theorem trimList_pad (l : List Char) :
    trimList ('\n' :: (l ++ ['\n'])) = trimList l := by
  have hw : jsWhite '\n' = true := by decide
  unfold trimList
  rw [List.dropWhile_cons, if_pos hw, List.dropWhile_append]
  by_cases he : (l.dropWhile jsWhite).isEmpty = true
  · rw [if_pos he]
    have : l.dropWhile jsWhite = [] := by simpa [List.isEmpty_iff] using he
    rw [this]
    simp [List.dropWhile_cons, hw]
  · rw [if_neg he]
    rw [List.reverse_append]
    simp only [List.reverse_cons, List.reverse_nil, List.nil_append, List.singleton_append]
    rw [List.dropWhile_cons, if_pos hw]

theorem trimList_decomp (l : List Char) :
    ∃ a b, l = a ++ (trimList l ++ b) := by
  refine ⟨l.takeWhile jsWhite,
    ((l.dropWhile jsWhite).reverse.takeWhile jsWhite).reverse, ?_⟩
  conv_lhs => rw [← List.takeWhile_append_dropWhile jsWhite l]
  congr 1
  conv_lhs => rw [← List.reverse_reverse (l.dropWhile jsWhite),
    ← List.takeWhile_append_dropWhile jsWhite (l.dropWhile jsWhite).reverse]
  rw [List.reverse_append]
  rfl

theorem occursB_trimList_false {pat : List Char} {l : List Char}
    (h : occursB pat l = false) : occursB pat (trimList l) = false := by
  cases ho : occursB pat (trimList l) with
  | false => rfl
  | true =>
    exfalso
    obtain ⟨a, b, hdec⟩ := trimList_decomp l
    have : occursB pat l = true := by
      rw [hdec]
      exact occursB_append_left a (occursB_append_right b ho)
    rw [this] at h
    exact absurd h (by simp)

/-! ## JSON values and a model of JavaScript JSON.parse -/

/-- JSON values.  Numbers keep their source lexeme: no claim depends on
numeric value, only on structure. -/
inductive Json where
  | null
  | bool (b : Bool)
  | num (lexeme : String)
  | str (s : String)
  | arr (elems : List Json)
  | obj (members : List (String × Json))

/-- The whitespace JSON.parse skips between tokens. -/
def jsonWs (c : Char) : Bool := c == ' ' || c == '\t' || c == '\n' || c == '\r'

def hexVal (c : Char) : Option Nat :=
  if '0' ≤ c ∧ c ≤ '9' then some (c.toNat - 48)
  else if 'a' ≤ c ∧ c ≤ 'f' then some (c.toNat - 87)
  else if 'A' ≤ c ∧ c ≤ 'F' then some (c.toNat - 55)
  else none

/-- Parse the body of a JSON string after the opening quote, returning the
decoded characters and the input after the closing quote.  Escapes are the
JSON ones; `\uXXXX` surrogate pairs are combined; raw control characters
are refused as JSON.parse refuses them. -/
def parseJString : Nat → List Char → Option (List Char × List Char)
  | 0, _ => none
  | _ + 1, [] => none
  | fuel + 1, c :: rest =>
    if c == '"' then some ([], rest)
    else if c == '\\' then
      match rest with
      | [] => none
      | e :: rest2 =>
        if e == '"' then (parseJString fuel rest2).map (fun x => ('"' :: x.1, x.2))
        else if e == '\\' then (parseJString fuel rest2).map (fun x => ('\\' :: x.1, x.2))
        else if e == '/' then (parseJString fuel rest2).map (fun x => ('/' :: x.1, x.2))
        else if e == 'b' then (parseJString fuel rest2).map (fun x => (Char.ofNat 8 :: x.1, x.2))
        else if e == 'f' then (parseJString fuel rest2).map (fun x => (Char.ofNat 12 :: x.1, x.2))
        else if e == 'n' then (parseJString fuel rest2).map (fun x => ('\n' :: x.1, x.2))
        else if e == 'r' then (parseJString fuel rest2).map (fun x => ('\r' :: x.1, x.2))
        else if e == 't' then (parseJString fuel rest2).map (fun x => ('\t' :: x.1, x.2))
        else if e == 'u' then
          match rest2 with
          | h1 :: h2 :: h3 :: h4 :: rest3 =>
            match hexVal h1, hexVal h2, hexVal h3, hexVal h4 with
            | some v1, some v2, some v3, some v4 =>
              let hi := ((v1 * 16 + v2) * 16 + v3) * 16 + v4
              if 0xD800 ≤ hi ∧ hi ≤ 0xDBFF then
                match rest3 with
                | '\\' :: 'u' :: g1 :: g2 :: g3 :: g4 :: rest4 =>
                  match hexVal g1, hexVal g2, hexVal g3, hexVal g4 with
                  | some w1, some w2, some w3, some w4 =>
                    let lo := ((w1 * 16 + w2) * 16 + w3) * 16 + w4
                    if 0xDC00 ≤ lo ∧ lo ≤ 0xDFFF then
                      (parseJString fuel rest4).map
                        (fun x => (Char.ofNat (0x10000 + (hi - 0xD800) * 0x400 + (lo - 0xDC00)) :: x.1, x.2))
                    else (parseJString fuel rest3).map (fun x => (Char.ofNat hi :: x.1, x.2))
                  | _, _, _, _ => (parseJString fuel rest3).map (fun x => (Char.ofNat hi :: x.1, x.2))
                | _ => (parseJString fuel rest3).map (fun x => (Char.ofNat hi :: x.1, x.2))
              else (parseJString fuel rest3).map (fun x => (Char.ofNat hi :: x.1, x.2))
            | _, _, _, _ => none
          | _ => none
        else none
    else if c.toNat < 0x20 then none
    else (parseJString fuel rest).map (fun x => (c :: x.1, x.2))

/-- Optional fraction part of a JSON number. -/
def parseFrac (cs : List Char) : List Char × List Char :=
  match cs with
  | '.' :: r =>
    let ds := r.takeWhile Char.isDigit
    if ds.isEmpty then ([], cs) else ('.' :: ds, r.dropWhile Char.isDigit)
  | _ => ([], cs)

/-- Optional exponent part of a JSON number. -/
def parseExp (cs : List Char) : List Char × List Char :=
  match cs with
  | e :: r =>
    if e == 'e' || e == 'E' then
      match r with
      | '+' :: r2 =>
        let ds := r2.takeWhile Char.isDigit
        if ds.isEmpty then ([], cs) else (e :: '+' :: ds, r2.dropWhile Char.isDigit)
      | '-' :: r2 =>
        let ds := r2.takeWhile Char.isDigit
        if ds.isEmpty then ([], cs) else (e :: '-' :: ds, r2.dropWhile Char.isDigit)
      | _ =>
        let ds := r.takeWhile Char.isDigit
        if ds.isEmpty then ([], cs) else (e :: ds, r.dropWhile Char.isDigit)
    else ([], cs)
  | [] => ([], cs)

/-- A JSON number lexeme: `-? (0 | [1-9][0-9]*) frac? exp?`. -/
def parseNumber (cs : List Char) : Option (List Char × List Char) :=
  let signAndRest : List Char × List Char :=
    match cs with
    | '-' :: r => (['-'], r)
    | _ => ([], cs)
  match signAndRest.2 with
  | [] => none
  | c :: r =>
    if c == '0' then
      let fr := parseFrac r
      let ex := parseExp fr.2
      some (signAndRest.1 ++ c :: (fr.1 ++ ex.1), ex.2)
    else if c.isDigit then
      let ds := r.takeWhile Char.isDigit
      let r1 := r.dropWhile Char.isDigit
      let fr := parseFrac r1
      let ex := parseExp fr.2
      some (signAndRest.1 ++ c :: (ds ++ fr.1 ++ ex.1), ex.2)
    else none

mutual

/-- Parse one JSON value (leading whitespace allowed), returning it and the
rest of the input. -/
def parseVal : Nat → List Char → Option (Json × List Char)
  | 0, _ => none
  | fuel + 1, cs =>
    let cs1 := cs.dropWhile jsonWs
    match cs1 with
    | [] => none
    | c :: rest =>
      if c == '"' then
        (parseJString (rest.length + 1) rest).map (fun x => (Json.str ⟨x.1⟩, x.2))
      else if c == '{' then
        let r1 := rest.dropWhile jsonWs
        match r1 with
        | '}' :: r2 => some (Json.obj [], r2)
        | _ => (parseMembers fuel r1).map (fun x => (Json.obj x.1, x.2))
      else if c == '[' then
        let r1 := rest.dropWhile jsonWs
        match r1 with
        | ']' :: r2 => some (Json.arr [], r2)
        | _ => (parseElems fuel r1).map (fun x => (Json.arr x.1, x.2))
      else if isPrefixList "true".data cs1 then some (Json.bool true, cs1.drop 4)
      else if isPrefixList "false".data cs1 then some (Json.bool false, cs1.drop 5)
      else if isPrefixList "null".data cs1 then some (Json.null, cs1.drop 4)
      else (parseNumber cs1).map (fun x => (Json.num ⟨x.1⟩, x.2))

/-- Parse the elements of a non-empty JSON array (input starts at the first
element), consuming the closing bracket. -/
def parseElems : Nat → List Char → Option (List Json × List Char)
  | 0, _ => none
  | fuel + 1, cs =>
    match parseVal fuel cs with
    | some (v, rest) =>
      let r1 := rest.dropWhile jsonWs
      match r1 with
      | ']' :: r2 => some ([v], r2)
      | ',' :: r2 => (parseElems fuel r2).map (fun x => (v :: x.1, x.2))
      | _ => none
    | none => none

/-- Parse the members of a non-empty JSON object (input starts at the first
key), consuming the closing brace. -/
def parseMembers : Nat → List Char → Option (List (String × Json) × List Char)
  | 0, _ => none
  | fuel + 1, cs =>
    let cs1 := cs.dropWhile jsonWs
    match cs1 with
    | '"' :: r =>
      match parseJString (r.length + 1) r with
      | some (k, r2) =>
        let r3 := r2.dropWhile jsonWs
        match r3 with
        | ':' :: r4 =>
          match parseVal fuel r4 with
          | some (v, r5) =>
            let r6 := r5.dropWhile jsonWs
            match r6 with
            | '}' :: r7 => some ([(⟨k⟩, v)], r7)
            | ',' :: r7 => (parseMembers fuel r7).map (fun x => ((⟨k⟩, v) :: x.1, x.2))
            | _ => none
          | none => none
        | _ => none
      | none => none
    | _ => none

end

/-- JavaScript `JSON.parse`: one complete value, nothing but whitespace
after it. -/
def jsonParse (s : String) : Option Json :=
  match parseVal (2 * s.data.length + 2) s.data with
  | some (v, rest) => if (rest.dropWhile jsonWs).isEmpty then some v else none
  | none => none

/-- JavaScript property access `obj[k]` on a parsed JSON value: on an
object, the last member with the given key (later duplicate keys override
earlier ones, as in JSON.parse); on any non-object value, `undefined`
(`none`). -/
def Json.getField? : Json → String → Option Json
  | Json.obj kvs, k => ((kvs.filter (fun kv => kv.fst == k)).map (fun kv => kv.snd)).getLast?
  | _, _ => none

/-! ## The provider abstraction (callAI) -/

/-- One part of a multimodal prompt: a text fragment or an inline image
(mime type plus base64 payload), as the Gemini SDK shapes them. -/
inductive PromptPart where
  | text (text : String)
  | inlineData (mimeType : String) (data : String)

/-- The `prompt` argument of `callAI`: a plain string or a list of parts. -/
inductive Prompt where
  | str (s : String)
  | parts (ps : List PromptPart)

/-- The `AIConfig` record.  `provider` is a string because the dispatch in
`callAI` compares it against the two known values and otherwise throws. -/
structure AIConfig where
  provider : String
  modelName : String
  apiKey : Option String
  baseUrl : Option String

/-- One entry of an OpenAI-style multimodal `content` array. -/
inductive OAEntry where
  | text (text : String)
  | imageUrl (url : String)

/-- The `content` of an OpenAI-style chat message. -/
inductive OAContent where
  | str (s : String)
  | parts (entries : List OAEntry)

/-- An OpenAI-style chat message. -/
structure OAMessage where
  role : String
  content : OAContent

/-- The JSON body `callAI` posts to the generic chat endpoint. -/
structure OABody where
  model : String
  messages : List OAMessage
  temperature : String
  responseFormatJsonObject : Bool

/-- What one invocation of `callAI` does up to the provider boundary:
either a Gemini SDK generate-content call, an HTTP POST to the generic
endpoint, or a thrown error (no network activity). -/
inductive GatewayOutcome where
  | geminiSDKCall (model : String) (contents : Prompt)
      (systemInstruction : Option String) (responseMimeType : String) (hasSchema : Bool)
  | httpPost (url : String) (bearer : String) (body : OABody)
  | failure (msg : String)

/-- JavaScript truthiness of an optional string: `undefined` and `""` are
falsy. -/
def optTruthy : Option String → Bool
  | none => false
  | some s => !(s == "")

/-- The per-part translation in the `Array.isArray(prompt)` branch of
`callAI`: `if (part.text) ...; if (part.inlineData) ...; return null`,
followed by `.filter(Boolean)`.  A text part with empty text is falsy and
is therefore dropped. -/
def translatePart : PromptPart → Option OAEntry
  | PromptPart.text t => if t == "" then none else some (OAEntry.text t)
  | PromptPart.inlineData mimeType d =>
    some (OAEntry.imageUrl ("data:" ++ mimeType ++ ";base64," ++ d))

/-- The `callAI` dispatch, embedded up to the point the provider boundary
is crossed. -/
def callAI (prompt : Prompt) (config : AIConfig) (systemInstruction : Option String)
    (responseMimeType : String) (responseSchema : Bool) : GatewayOutcome :=
  if config.provider == "gemini" then
    GatewayOutcome.geminiSDKCall config.modelName prompt systemInstruction
      responseMimeType responseSchema
  else if config.provider == "openai" then
    if !optTruthy config.apiKey || !optTruthy config.baseUrl then
      GatewayOutcome.failure "Missing API Key or Base URL for custom provider"
    else
      let baseUrl := config.baseUrl.getD ""
      let url := if strContains baseUrl "/chat/completions" then baseUrl
        else stripTrailingSlash baseUrl ++ "/chat/completions"
      let sysMsgs : List OAMessage :=
        if optTruthy systemInstruction then
          [⟨"system", OAContent.str (systemInstruction.getD "")⟩]
        else []
      let userContent : OAContent :=
        match prompt with
        | Prompt.parts ps => OAContent.parts (ps.filterMap translatePart)
        | Prompt.str s =>
          OAContent.str (if responseMimeType == "application/json" then
            s ++ "\n\nIMPORTANT: Respond with valid JSON only. Do not use Markdown code blocks."
          else s)
      GatewayOutcome.httpPost url (config.apiKey.getD "")
        ⟨config.modelName, sysMsgs ++ [⟨"user", userContent⟩], "0.7",
          responseMimeType == "application/json"⟩
  else GatewayOutcome.failure "Unknown Provider"

/-! ## The structured generation services -/

/-- Strip markdown code fences then trim, as both services do before
`JSON.parse`: `text.replace(/```json/g, '').replace(/```/g, '').trim()`. -/
def stripFences (text : String) : String :=
  jsTrim (jsRemoveAll "```" (jsRemoveAll "```json" text))

/-- The outline-generation prompt template. -/
def outlinePrompt (topic customStyle : String) : String :=
  "\n    You are a professional document architect. \n    The user wants to write a document about: \"" ++
  topic ++ "\".\n    " ++
  (if customStyle == "" then ""
   else "User's specific style requirement: \"" ++ customStyle ++ "\".") ++
  "\n    \n    Please generate 3 distinct outlines.\n    If the user provided a specific style, ensure at least 2 outlines align closely with that style, but offer 1 variation.\n    If no style was provided, offer diverse tones (e.g., Academic, Professional, Creative).\n\n    For each outline, provide:\n    1. style: A short name for the tone/style.\n    2. description: A brief explanation of the approach.\n    3. chapters: A list of chapter titles (5-8 chapters).\n  "

/-- `generateOutlines` up to the provider boundary: the guard `if (!topic)
throw new Error("Topic is required")` followed by the `callAI` invocation
with JSON mime type and (for the Gemini provider only) a response schema. -/
def generateOutlinesCall (topic customStyle : String) (config : AIConfig) :
    Except String GatewayOutcome :=
  if topic == "" then Except.error "Topic is required"
  else Except.ok (callAI (Prompt.str (outlinePrompt topic customStyle)) config none
    "application/json" (config.provider == "gemini"))

/-- The response-handling stage of `generateOutlines`: strip fences, parse,
and on failure throw the fixed user-facing message. -/
def parseOutlinesResponse (text : String) : Except String Json :=
  match jsonParse (stripFences text) with
  | some v => Except.ok v
  | none => Except.error "AI response was not valid JSON. Please try again."

/-- `line.trim().startsWith('-') || line.trim().startsWith('•')`. -/
def isBulletLine (l : String) : Bool :=
  match (jsTrim l).data with
  | c :: _ => c == '-' || c == '•'
  | [] => false

/-- `l.replace(/^[-•]\s*/, '')`: anchored at the start of the untrimmed
line, so a line with leading whitespace is returned unchanged. -/
def stripLeadingMarker (l : String) : String :=
  match l.data with
  | c :: cs => if c == '-' || c == '•' then ⟨cs.dropWhile jsWhite⟩ else l
  | [] => l

/-- The bullet-scraping fallback of `generateChapterDetails`. -/
def bulletFallback (text : String) : List String :=
  ((jsLines text).filter isBulletLine).map stripLeadingMarker

/-- Result of the response-handling stage of `generateChapterDetails`:
either `data.details` as JavaScript property access yields it (`none` is
`undefined`) or the bullet fallback list. -/
inductive DetailsOutcome where
  | fromJson (v : Option Json)
  | fallback (lines : List String)

/-- The response-handling stage of `generateChapterDetails`.  When the
parsed value is `null`, the property access `data.details` throws a
TypeError inside the try block, so the catch-fallback runs; any other
parsed value yields `data.details` (possibly `undefined`). -/
def parseDetailsResponse (text : String) : DetailsOutcome :=
  match jsonParse (stripFences text) with
  | some v =>
    match v with
    | Json.null => DetailsOutcome.fallback (bulletFallback text)
    | _ => DetailsOutcome.fromJson (v.getField? "details")
  | none => DetailsOutcome.fallback (bulletFallback text)

/-- The chapter-content prompt template (without the image instruction). -/
def contentPromptBase (topic chapterTitle : String) (points : List String)
    (tone : String) : String :=
  "\n    You are writing a section of a document.\n    Document Topic: \"" ++ topic ++
  "\"\n    Tone/Style: " ++ tone ++ "\n    \n    Chapter Title: \"" ++ chapterTitle ++
  "\"\n    Key Points to Cover:\n    " ++
  String.intercalate "\n" (points.map (fun p => "- " ++ p)) ++
  "\n    \n    Write the full content for this chapter in Markdown format. \n    Do not include the chapter title in the output.\n    Focus on high-quality, coherent paragraphs.\n  "

/-- The extra instruction appended when a chart image is supplied. -/
def imageAnalysisInstruction : String :=
  "\n    \n[IMPORTANT] A chart/image has been provided for this section. \n    Analyze the visual data in the image provided and incorporate specific insights, trends, or numbers from the chart into your writing.\n    Ensure the analysis flows naturally with the key points provided.\n    "

/-- The full prompt text when a chart image is supplied. -/
def contentPromptWithImage (topic chapterTitle : String) (points : List String)
    (tone : String) : String :=
  contentPromptBase topic chapterTitle points tone ++ imageAnalysisInstruction

/-- Latest-valid-split search behind the greedy regex
`^data:(.+);base64,(.+)$`: the last occurrence of the separator that leaves
both a non-empty head and a non-empty tail. -/
def greedySplitAux (pat : List Char) : List Char → Option (List Char × List Char)
  | [] => none
  | c :: cs =>
    match greedySplitAux pat cs with
    | some (m, d) => some (c :: m, d)
    | none =>
      if isPrefixList pat cs then
        let d := cs.drop pat.length
        if d.isEmpty then none else some ([c], d)
      else none

/-- Characters matched by `.` in a JavaScript regex without the `s` flag. -/
def dotChar (c : Char) : Bool :=
  !(c == '\n' || c == '\r' || c.toNat == 0x2028 || c.toNat == 0x2029)

/-- `chartImageBase64.match(/^data:(.+);base64,(.+)$/)`, returning the two
captured groups on success. -/
def parseDataUri (s : String) : Option (String × String) :=
  if isPrefixList "data:".data s.data then
    let body := s.data.drop ("data:".data.length)
    match greedySplitAux ";base64,".data body with
    | some (m, d) =>
      if m.all dotChar && d.all dotChar then some (⟨m⟩, ⟨d⟩) else none
    | none => none
  else none

/-- `generateChapterContent` up to the provider boundary. -/
def generateChapterContentCall (topic chapterTitle : String) (points : List String)
    (tone : String) (config : AIConfig) (chartImageBase64 : Option String) :
    GatewayOutcome :=
  let basePrompt := contentPromptBase topic chapterTitle points tone
  let promptText :=
    if optTruthy chartImageBase64 then basePrompt ++ imageAnalysisInstruction
    else basePrompt
  if optTruthy chartImageBase64 then
    match parseDataUri (chartImageBase64.getD "") with
    | some (m, d) =>
      callAI (Prompt.parts [PromptPart.inlineData m d, PromptPart.text promptText]) config none
        "text/plain" false
    | none => callAI (Prompt.str promptText) config none "text/plain" false
  else callAI (Prompt.str promptText) config none "text/plain" false

/-! ## Observation helpers -/

/-- The URL of an outcome, when it is an HTTP POST. -/
def outcomeUrl : GatewayOutcome → Option String
  | GatewayOutcome.httpPost url _ _ => some url
  | _ => none

/-- The content of the user message (the last message) of an HTTP POST. -/
def userContentOf : GatewayOutcome → Option OAContent
  | GatewayOutcome.httpPost _ _ body => (body.messages.map OAMessage.content).getLast?
  | _ => none

/-- Whether an outcome crosses the network boundary. -/
def isNetworkCall : GatewayOutcome → Bool
  | GatewayOutcome.geminiSDKCall _ _ _ _ _ => true
  | GatewayOutcome.httpPost _ _ _ => true
  | GatewayOutcome.failure _ => false

/-- Whether a service invocation was rejected before calling the Gateway. -/
def callRejected : Except String GatewayOutcome → Bool
  | Except.error _ => true
  | Except.ok _ => false

/-- Whether a service invocation reaches the network. -/
def callReachesNetwork : Except String GatewayOutcome → Bool
  | Except.ok g => isNetworkCall g
  | Except.error _ => false

/-- The `outlines` array of a parsed response, when present. -/
def outlinesOf (j : Json) : Option (List Json) :=
  match j.getField? "outlines" with
  | some (Json.arr xs) => some xs
  | _ => none

/-! ## Concrete configurations used by witnesses -/

def cfgOpenAI : AIConfig := ⟨"openai", "gpt-4o-mini", some "sk-test", some "https://api.example.com/v1"⟩

def cfgOpenAISlash : AIConfig := ⟨"openai", "gpt-4o-mini", some "sk-test", some "https://api.example.com/v1/"⟩

def cfgGemini : AIConfig := ⟨"gemini", "gemini-3-flash", none, none⟩

def cfgNoKey : AIConfig := ⟨"openai", "gpt-4o-mini", none, some "https://api.example.com/v1"⟩

def cfgUnknown : AIConfig := ⟨"azure", "gpt-4o-mini", some "sk-test", some "https://api.example.com/v1"⟩

/-! ## Shared gateway lemmas -/

/-- The user-message content `callAI` builds for a given prompt. -/
def builtUserContent (prompt : Prompt) (mime : String) : OAContent :=
  match prompt with
  | Prompt.parts ps => OAContent.parts (ps.filterMap translatePart)
  | Prompt.str s =>
    OAContent.str (if mime == "application/json" then
      s ++ "\n\nIMPORTANT: Respond with valid JSON only. Do not use Markdown code blocks."
    else s)

theorem callAI_openai (mn k u : String) (hk2 : k ≠ "") (hu2 : u ≠ "")
    (prompt : Prompt) (si : Option String) (mime : String) (sch : Bool) :
    callAI prompt ⟨"openai", mn, some k, some u⟩ si mime sch =
      GatewayOutcome.httpPost
        (if strContains u "/chat/completions" then u
         else stripTrailingSlash u ++ "/chat/completions")
        k
        ⟨mn,
          (if optTruthy si then [⟨"system", OAContent.str (si.getD "")⟩] else []) ++
            [⟨"user", builtUserContent prompt mime⟩],
          "0.7", mime == "application/json"⟩ := by
  have e3 : optTruthy (some k) = true := by simp [optTruthy, hk2]
  have e4 : optTruthy (some u) = true := by simp [optTruthy, hu2]
  unfold callAI builtUserContent
  simp only [e3, e4]
  rfl

/-! ## Claim C1 -/

/-- Claim C1: for every config with provider GenericChatProvider (code
value "openai") and non-empty apiKey and baseUrl, the Gateway's HTTP POST
goes to exactly the URL obtained by stripping one trailing slash from
baseUrl and appending "/chat/completions" when baseUrl does not contain
that substring, and to baseUrl unchanged when it does. -/
theorem c1_gateway_url_normalization (prompt : Prompt) (config : AIConfig)
    (si : Option String) (mime : String) (sch : Bool) (k u : String)
    (hp : config.provider = "openai") (hk : config.apiKey = some k) (hk2 : k ≠ "")
    (hu : config.baseUrl = some u) (hu2 : u ≠ "") :
    (strContains u "/chat/completions" = false →
      outcomeUrl (callAI prompt config si mime sch) =
        some ((if u.data.getLast? = some '/' then String.mk u.data.dropLast else u) ++
          "/chat/completions")) ∧
    (strContains u "/chat/completions" = true →
      outcomeUrl (callAI prompt config si mime sch) = some u) := by
  obtain ⟨prov, mn, ak, bu⟩ := config
  simp only at hp hk hu
  subst hp hk hu
  rw [callAI_openai mn k u hk2 hu2 prompt si mime sch]
  constructor <;> intro hc
  · rw [outcomeUrl, if_neg (by simp [hc])]
    rw [stripTrailingSlash]
  · rw [outcomeUrl, if_pos (by simp [hc])]

/-- Witness for C1 at concrete inputs: a baseUrl with a trailing slash
gains the standard path with the slash deduplicated, and a baseUrl already
containing the path is used unchanged. -/
theorem c1_gateway_url_normalization_witness :
    outcomeUrl (callAI (Prompt.str "Hi") cfgOpenAISlash none "text/plain" false) =
      some "https://api.example.com/v1/chat/completions" ∧
    outcomeUrl (callAI (Prompt.str "Hi")
      ⟨"openai", "gpt-4o-mini", some "sk-test", some "https://h/v1/chat/completions"⟩
      none "text/plain" false) = some "https://h/v1/chat/completions" := by
  constructor
  · have h := (c1_gateway_url_normalization (Prompt.str "Hi") cfgOpenAISlash none
      "text/plain" false "sk-test" "https://api.example.com/v1/" rfl rfl
      (by decide) rfl (by decide)).1 (by decide)
    exact h
  · have h := (c1_gateway_url_normalization (Prompt.str "Hi")
      ⟨"openai", "gpt-4o-mini", some "sk-test", some "https://h/v1/chat/completions"⟩ none
      "text/plain" false "sk-test" "https://h/v1/chat/completions" rfl rfl
      (by decide) rfl (by decide)).2 (by decide)
    exact h

/-! ## Claim C3 -/

/-- Claim C3: with provider "openai" and a missing or empty apiKey or
baseUrl, callAI fails with the configuration error and makes no network
call; with a provider that is neither "gemini" nor "openai", it fails with
the unknown-provider error, also without a network call. -/
theorem c3_config_and_unknown_provider_errors (prompt : Prompt) (config : AIConfig)
    (si : Option String) (mime : String) (sch : Bool) :
    (config.provider = "openai" →
      (optTruthy config.apiKey = false ∨ optTruthy config.baseUrl = false) →
      callAI prompt config si mime sch =
        GatewayOutcome.failure "Missing API Key or Base URL for custom provider" ∧
      isNetworkCall (callAI prompt config si mime sch) = false) ∧
    (config.provider ≠ "gemini" → config.provider ≠ "openai" →
      callAI prompt config si mime sch = GatewayOutcome.failure "Unknown Provider" ∧
      isNetworkCall (callAI prompt config si mime sch) = false) := by
  constructor
  · intro hp hmiss
    have hg : (config.provider == "gemini") = false := by
      simp [beq_iff_eq, hp]
    have ho : (config.provider == "openai") = true := by simp [beq_iff_eq, hp]
    have hcond : (!optTruthy config.apiKey || !optTruthy config.baseUrl) = true := by
      rcases hmiss with h | h <;> simp [h]
    have : callAI prompt config si mime sch =
        GatewayOutcome.failure "Missing API Key or Base URL for custom provider" := by
      unfold callAI
      rw [hg, ho]
      simp only [Bool.false_eq_true, if_false, if_true, hcond]
    exact ⟨this, by rw [this]; rfl⟩
  · intro hg ho
    have hg' : (config.provider == "gemini") = false := by simp [beq_iff_eq, hg]
    have ho' : (config.provider == "openai") = false := by simp [beq_iff_eq, ho]
    have : callAI prompt config si mime sch =
        GatewayOutcome.failure "Unknown Provider" := by
      unfold callAI
      rw [hg', ho']
      simp only [Bool.false_eq_true, if_false]
    exact ⟨this, by rw [this]; rfl⟩

/-- Witness for C3 at concrete inputs: a config with no apiKey gives the
configuration error, and a config with provider "azure" gives the
unknown-provider error. -/
theorem c3_config_and_unknown_provider_errors_witness :
    (callAI (Prompt.str "Hi") cfgNoKey none "text/plain" false =
       GatewayOutcome.failure "Missing API Key or Base URL for custom provider" ∧
     isNetworkCall (callAI (Prompt.str "Hi") cfgNoKey none "text/plain" false) = false) ∧
    (callAI (Prompt.str "Hi") cfgUnknown none "text/plain" false =
       GatewayOutcome.failure "Unknown Provider" ∧
     isNetworkCall (callAI (Prompt.str "Hi") cfgUnknown none "text/plain" false) = false) := by
  constructor
  · exact (c3_config_and_unknown_provider_errors (Prompt.str "Hi") cfgNoKey none
      "text/plain" false).1 rfl (Or.inl rfl)
  · exact (c3_config_and_unknown_provider_errors (Prompt.str "Hi") cfgUnknown none
      "text/plain" false).2 (by decide) (by decide)

/-! ## Greedy data-URI split lemmas -/

theorem occursB_head_false {S cs : List Char} (hS : S ≠ [])
    (h : occursB S cs = false) : isPrefixList S cs = false := by
  cases cs with
  | nil =>
    cases S with
    | nil => exact absurd rfl hS
    | cons a as => rfl
  | cons d ds =>
    simp only [occursB, Bool.or_eq_false_iff] at h
    exact h.1

theorem greedySplitAux_no_occurrence {S : List Char} (hS : S ≠ []) :
    ∀ (D : List Char), occursB S D = false → greedySplitAux S D = none := by
  intro D
  induction D with
  | nil => intro _; rfl
  | cons c cs ih =>
    intro h
    simp only [occursB, Bool.or_eq_false_iff] at h
    have h2 := ih h.2
    have h3 : isPrefixList S cs = false := occursB_head_false hS h.2
    simp [greedySplitAux, h2, h3]

theorem greedySplitAux_cons_none {S : List Char} {c : Char} {T : List Char}
    (hT : greedySplitAux S T = none) (hpre : isPrefixList S T = false) :
    greedySplitAux S (c :: T) = none := by
  simp [greedySplitAux, hT, hpre]

theorem greedySplitAux_cons_some {S : List Char} {c : Char} {T M D : List Char}
    (hT : greedySplitAux S T = some (M, D)) :
    greedySplitAux S (c :: T) = some (c :: M, D) := by
  simp [greedySplitAux, hT]

theorem greedySplitAux_cons_found {S : List Char} {c : Char} {T : List Char}
    (hT : greedySplitAux S T = none) (hpre : isPrefixList S T = true)
    (hne : (T.drop S.length).isEmpty = false) :
    greedySplitAux S (c :: T) = some ([c], T.drop S.length) := by
  simp [greedySplitAux, hT, hpre, hne]

/-- No occurrence of the separator starts at position 1 or later of
`";base64," ++ D` when `D` itself is free of the separator: the separator
has no border, so the greedy search over that suffix finds nothing. -/
theorem greedySplitAux_sep_append_none (D : List Char)
    (hocc : occursB ";base64,".data D = false) :
    greedySplitAux ";base64,".data (";base64,".data ++ D) = none := by
  have h8 : greedySplitAux ";base64,".data D = none :=
    greedySplitAux_no_occurrence (by decide) D hocc
  have p8 : isPrefixList ";base64,".data D = false :=
    occursB_head_false (by decide) hocc
  have h7 := greedySplitAux_cons_none (c := ',') h8 p8
  have h6 := greedySplitAux_cons_none (c := '4') h7 rfl
  have h5 := greedySplitAux_cons_none (c := '6') h6 rfl
  have h4 := greedySplitAux_cons_none (c := 'e') h5 rfl
  have h3 := greedySplitAux_cons_none (c := 's') h4 rfl
  have h2 := greedySplitAux_cons_none (c := 'a') h3 rfl
  have h1 := greedySplitAux_cons_none (c := 'b') h2 rfl
  exact greedySplitAux_cons_none (c := ';') h1 rfl

/-- The greedy split of `M ++ ";base64," ++ D` is exactly `(M, D)` when
`M` and `D` are non-empty and `D` does not contain the separator. -/
theorem greedySplitAux_exact (D : List Char) (hD : D ≠ [])
    (hocc : occursB ";base64,".data D = false) :
    ∀ (M : List Char), M ≠ [] →
      greedySplitAux ";base64,".data (M ++ (";base64,".data ++ D)) = some (M, D) := by
  have h0 := greedySplitAux_sep_append_none D hocc
  have hDe : D.isEmpty = false := by
    cases D with
    | nil => exact absurd rfl hD
    | cons d ds => rfl
  intro M
  induction M with
  | nil => intro h; exact absurd rfl h
  | cons x xs ih =>
    intro _
    cases xs with
    | nil =>
      have hpre : isPrefixList ";base64,".data (";base64,".data ++ D) = true :=
        isPrefixList_append D (by decide)
      have hdrop : ((";base64,".data ++ D).drop (";base64,".data).length) = D :=
        List.drop_left _ _
      have := greedySplitAux_cons_found (c := x) h0 hpre (by rw [hdrop]; exact hDe)
      rw [List.singleton_append]
      rw [this, hdrop]
    | cons y ys =>
      have h1 := ih (by simp)
      rw [List.cons_append]
      exact greedySplitAux_cons_some h1

theorem string_data_ne_nil {m : String} (hm : m ≠ "") : m.data ≠ [] := by
  intro h
  apply hm
  cases m with
  | mk l => simp only at h; rw [h]

/-- Round-trip of the data-URI pattern for a well-formed mime type and
payload: encoding then matching with `^data:(.+);base64,(.+)$` recovers the
original pair. -/
theorem parseDataUri_roundtrip (m d : String) (hm : m ≠ "") (hd : d ≠ "")
    (hmd : m.data.all dotChar = true) (hdd : d.data.all dotChar = true)
    (hsep : strContains d ";base64," = false) :
    parseDataUri ("data:" ++ m ++ ";base64," ++ d) = some (m, d) := by
  have hdata : ("data:" ++ m ++ ";base64," ++ d).data =
      "data:".data ++ (m.data ++ (";base64,".data ++ d.data)) := by
    simp [String.data_append]
  unfold parseDataUri
  rw [hdata]
  have hpre : isPrefixList "data:".data
      ("data:".data ++ (m.data ++ (";base64,".data ++ d.data))) = true :=
    isPrefixList_append _ (by decide)
  rw [if_pos hpre]
  rw [List.drop_left]
  have hsplit := greedySplitAux_exact d.data (string_data_ne_nil hd) hsep m.data
    (string_data_ne_nil hm)
  simp only [hsplit]
  rw [if_pos (by simp [hmd, hdd])]

/-! ## Claim C2 -/

/-- Counterexample to claim C2 as stated: a multimodal prompt consisting of
the single text part with empty text is not translated into a text entry;
JavaScript truthiness makes `part.text` falsy, so the part is dropped and
the produced content array is empty rather than containing a text entry. -/
theorem c2_multimodal_translation_counterexample :
    userContentOf (callAI (Prompt.parts [PromptPart.text ""]) cfgOpenAI none
      "text/plain" false) = some (OAContent.parts []) ∧
    OAContent.parts [] ≠ OAContent.parts [OAEntry.text ""] := by
  refine ⟨rfl, ?_⟩
  intro h
  simp at h

/-- Claim C2 (amended): through the GenericChatProvider path, a multimodal
prompt is translated part by part in order; an image part becomes an
image_url entry whose url is exactly "data:" ++ mimeType ++ ";base64," ++
data; a text part with non-empty text becomes a text entry, while a text
part with empty text is dropped.  Moreover, for an image part whose mime
type and payload are non-empty, newline-free, and whose payload does not
contain ";base64,", matching the produced url against the repository's
data-URI pattern recovers the original mime type and payload. -/
theorem c2_multimodal_translation (ps : List PromptPart) (config : AIConfig)
    (si : Option String) (mime : String) (sch : Bool) (k u : String)
    (hp : config.provider = "openai") (hk : config.apiKey = some k) (hk2 : k ≠ "")
    (hu : config.baseUrl = some u) (hu2 : u ≠ "") :
    userContentOf (callAI (Prompt.parts ps) config si mime sch) =
      some (OAContent.parts (ps.filterMap (fun p =>
        match p with
        | PromptPart.text t => if t = "" then none else some (OAEntry.text t)
        | PromptPart.inlineData mt dt =>
          some (OAEntry.imageUrl ("data:" ++ mt ++ ";base64," ++ dt))))) ∧
    (∀ mt dt, mt ≠ "" → dt ≠ "" → mt.data.all dotChar = true →
      dt.data.all dotChar = true → strContains dt ";base64," = false →
      parseDataUri ("data:" ++ mt ++ ";base64," ++ dt) = some (mt, dt)) := by
  constructor
  · obtain ⟨prov, mn, ak, bu⟩ := config
    simp only at hp hk hu
    subst hp hk hu
    rw [callAI_openai mn k u hk2 hu2]
    rw [userContentOf]
    have hmap : ps.filterMap translatePart = ps.filterMap (fun p =>
        match p with
        | PromptPart.text t => if t = "" then none else some (OAEntry.text t)
        | PromptPart.inlineData mt dt =>
          some (OAEntry.imageUrl ("data:" ++ mt ++ ";base64," ++ dt))) := by
      apply List.filterMap_congr
      intro p _
      cases p with
      | text t => simp [translatePart, beq_iff_eq]
      | inlineData mt dt => rfl
    simp [builtUserContent, hmap]
  · intro mt dt h1 h2 h3 h4 h5
    exact parseDataUri_roundtrip mt dt h1 h2 h3 h4 h5

/-- Witness for C2 at concrete inputs: an image part followed by a text
part yields the image_url entry (with the exact data URI) then the text
entry, and matching that URI recovers the mime type and payload. -/
theorem c2_multimodal_translation_witness :
    userContentOf (callAI (Prompt.parts [PromptPart.inlineData "image/png" "iVBORw0KGgo=",
        PromptPart.text "analyze this"]) cfgOpenAI none "text/plain" false) =
      some (OAContent.parts [OAEntry.imageUrl "data:image/png;base64,iVBORw0KGgo=",
        OAEntry.text "analyze this"]) ∧
    parseDataUri "data:image/png;base64,iVBORw0KGgo=" = some ("image/png", "iVBORw0KGgo=") := by
  constructor
  · have h := (c2_multimodal_translation
      [PromptPart.inlineData "image/png" "iVBORw0KGgo=", PromptPart.text "analyze this"]
      cfgOpenAI none "text/plain" false "sk-test" "https://api.example.com/v1"
      rfl rfl (by decide) rfl (by decide)).1
    simpa using h
  · exact (c2_multimodal_translation
      [PromptPart.inlineData "image/png" "iVBORw0KGgo=", PromptPart.text "analyze this"]
      cfgOpenAI none "text/plain" false "sk-test" "https://api.example.com/v1"
      rfl rfl (by decide) rfl (by decide)).2 "image/png" "iVBORw0KGgo="
      (by decide) (by decide) (by decide) (by decide) (by decide)

/-! ## Claim C4 -/

/-- Claim C4: whenever the code-fence-stripped response text does not parse
as JSON, generateOutlines throws exactly the fixed user-facing message "AI
response was not valid JSON. Please try again." — never the underlying
parser error and never a partial result (no success value exists).  The
message is a constant, so the raw text is not part of the thrown error. -/
theorem c4_outline_parse_failure_error (text : String)
    (h : jsonParse (stripFences text) = none) :
    parseOutlinesResponse text =
      Except.error "AI response was not valid JSON. Please try again." ∧
    ∀ j, parseOutlinesResponse text ≠ Except.ok j := by
  have h1 : parseOutlinesResponse text =
      Except.error "AI response was not valid JSON. Please try again." := by
    unfold parseOutlinesResponse
    rw [h]
  exact ⟨h1, fun j hj => by rw [h1] at hj; exact Except.noConfusion hj⟩

/-- Witness for C4 at a concrete input: a prose reply is not JSON and the
service throws the fixed message. -/
theorem c4_outline_parse_failure_error_witness :
    parseOutlinesResponse "I cannot answer that." =
      Except.error "AI response was not valid JSON. Please try again." :=
  (c4_outline_parse_failure_error "I cannot answer that." rfl).1

/-! ## Claim C9 -/

/-- Counterexample to claim C9 as stated: the response text with an empty
outlines array is accepted by generateOutlines (the parsed value is
returned with no shape validation), yet it contains 0 outline records, not
3. -/
theorem c9_outline_shape_counterexample :
    parseOutlinesResponse "\x7b\"outlines\": []\x7d" =
      Except.ok (Json.obj [("outlines", Json.arr [])]) ∧
    outlinesOf (Json.obj [("outlines", Json.arr [])]) = some [] ∧
    ([] : List Json).length ≠ 3 :=
  ⟨rfl, rfl, by decide⟩

/-- Claim C9 (amended): generateOutlines succeeds exactly on response texts
whose code-fence-stripped form parses as JSON, and returns the parsed value
unchanged with no validation of the 3-outline / non-empty-field / 5-to-8
chapter shape; the requested shape lives only in the prompt and the
advisory schema and is not checked on the way out. -/
theorem c9_outline_no_shape_validation (text : String) :
    (∀ j, jsonParse (stripFences text) = some j →
      parseOutlinesResponse text = Except.ok j) ∧
    (jsonParse (stripFences text) = none →
      parseOutlinesResponse text =
        Except.error "AI response was not valid JSON. Please try again.") := by
  constructor
  · intro j hj
    unfold parseOutlinesResponse
    rw [hj]
  · intro h
    unfold parseOutlinesResponse
    rw [h]

/-- Witness for C9 (amended) at a concrete input: the empty object parses
and is returned as is. -/
theorem c9_outline_no_shape_validation_witness :
    parseOutlinesResponse "\x7b\x7d" = Except.ok (Json.obj []) :=
  (c9_outline_no_shape_validation "\x7b\x7d").1 (Json.obj []) rfl

/-! ## Claim C5 -/

/-- Counterexample to claim C5 as stated: the response " - a" fails JSON
parsing and its single line trim-starts with "-", but the replace regex is
anchored at the start of the untrimmed line, so the marker is not stripped:
the fallback returns [" - a"], not ["a"]. -/
theorem c5_details_fallback_counterexample :
    jsonParse (stripFences " - a") = none ∧
    parseDetailsResponse " - a" = DetailsOutcome.fallback [" - a"] ∧
    (" - a" : String) ≠ "a" :=
  ⟨rfl, rfl, by decide⟩

/-- Claim C5 (amended): when the stripped response fails JSON parsing,
generateChapterDetails does not throw: it returns every line whose trimmed
form starts with "-" or "•", each passed through the anchored replace that
strips the marker and following whitespace only when the marker is the very
first character of the untrimmed line; with no such lines the result is
the empty list. -/
theorem c5_details_fallback (text : String)
    (h : jsonParse (stripFences text) = none) :
    parseDetailsResponse text = DetailsOutcome.fallback
      (((jsLines text).filter isBulletLine).map stripLeadingMarker) ∧
    ((∀ l ∈ jsLines text, isBulletLine l = false) →
      parseDetailsResponse text = DetailsOutcome.fallback []) := by
  have h1 : parseDetailsResponse text = DetailsOutcome.fallback (bulletFallback text) := by
    unfold parseDetailsResponse
    rw [h]
  constructor
  · exact h1
  · intro hall
    rw [h1]
    unfold bulletFallback
    have hnil : (jsLines text).filter isBulletLine = [] := by
      rw [List.filter_eq_nil_iff]
      intro a ha
      simp [hall a ha]
    rw [hnil]
    rfl

/-- Witness for C5 (amended) at a concrete input: a prose reply with no
bullet lines yields the empty list without an error. -/
theorem c5_details_fallback_witness :
    parseDetailsResponse "no bullets in this reply" = DetailsOutcome.fallback [] :=
  (c5_details_fallback "no bullets in this reply" rfl).2 (by decide)

/-! ## Claim C10 -/

/-- Counterexample to claim C10 as stated: "null" parses as valid JSON and
the parsed value has no "details" key, yet generateChapterDetails does not
return undefined: the property access on null throws a TypeError inside the
try block and the bullet fallback runs, returning the empty list. -/
theorem c10_details_undefined_counterexample :
    jsonParse (stripFences "null") = some Json.null ∧
    parseDetailsResponse "null" = DetailsOutcome.fallback [] ∧
    DetailsOutcome.fallback [] ≠ DetailsOutcome.fromJson none :=
  ⟨rfl, rfl, fun h => DetailsOutcome.noConfusion h⟩

/-- Claim C10 (amended): for a response text parsing to a non-null JSON
value without a "details" key, generateChapterDetails returns undefined —
neither a string list nor the bullet fallback; when the parsed value is
null, the property access throws and the bullet fallback runs instead. -/
theorem c10_details_no_key_undefined (text : String) (j : Json)
    (h : jsonParse (stripFences text) = some j) :
    (j ≠ Json.null → j.getField? "details" = none →
      parseDetailsResponse text = DetailsOutcome.fromJson none) ∧
    (j = Json.null →
      parseDetailsResponse text = DetailsOutcome.fallback (bulletFallback text)) := by
  constructor
  · intro hnn hnf
    have h2 : parseDetailsResponse text = DetailsOutcome.fromJson (j.getField? "details") := by
      unfold parseDetailsResponse
      rw [h]
      cases j with
      | null => exact absurd rfl hnn
      | bool b => rfl
      | num s => rfl
      | str s => rfl
      | arr xs => rfl
      | obj kvs => rfl
    rw [h2, hnf]
  · intro hj
    subst hj
    unfold parseDetailsResponse
    rw [h]

/-- Witness for C10 (amended) at a concrete input: the empty object has no
details key and the service returns undefined. -/
theorem c10_details_no_key_undefined_witness :
    parseDetailsResponse "\x7b\x7d" = DetailsOutcome.fromJson none :=
  (c10_details_no_key_undefined "\x7b\x7d" (Json.obj []) rfl).1
    (fun h => Json.noConfusion h) rfl

/-! ## Claim C6 -/

/-- Counterexample to claim C6 as stated: the whitespace-only topic " " is
truthy in JavaScript, so generateOutlines does not reject it and reaches
the Gateway (a network call for a valid config); only the empty string is
rejected. -/
theorem c6_topic_guard_counterexample :
    callRejected (generateOutlinesCall " " "" cfgGemini) = false ∧
    callReachesNetwork (generateOutlinesCall " " "" cfgGemini) = true ∧
    jsTrim " " = "" :=
  ⟨rfl, rfl, rfl⟩

/-- Claim C6 (amended): generateOutlines rejects with "Topic is required",
making no Gateway call, exactly when the topic is the empty string; every
non-empty topic — whitespace-only ones included — proceeds to the Gateway
invocation. -/
theorem c6_topic_guard (topic customStyle : String) (config : AIConfig) :
    (topic = "" → generateOutlinesCall topic customStyle config =
      Except.error "Topic is required") ∧
    (topic ≠ "" → generateOutlinesCall topic customStyle config =
      Except.ok (callAI (Prompt.str (outlinePrompt topic customStyle)) config none
        "application/json" (config.provider == "gemini"))) := by
  constructor
  · intro h
    subst h
    rfl
  · intro h
    unfold generateOutlinesCall
    rw [if_neg (by simp [h])]

/-- Witness for C6 (amended) at concrete inputs: the empty topic is
rejected with the fixed message. -/
theorem c6_topic_guard_witness :
    generateOutlinesCall "" "" cfgGemini = Except.error "Topic is required" :=
  (c6_topic_guard "" "" cfgGemini).1 rfl

/-! ## Claim C7 -/

/-- Claim C7: when generateChapterContent is given a non-empty chart image
string, then: if the string matches the data:<mime>;base64,<payload>
pattern, the Gateway is invoked with the two-part payload — decoded image
part first, prompt text second — and that prompt text contains the explicit
image-analysis instruction; if the string does not match the pattern, the
image is silently dropped and the same text-only Gateway call is made
instead, with no error raised. -/
theorem c7_chart_image_branching (topic chapterTitle : String) (points : List String)
    (tone : String) (config : AIConfig) (img : String) (himg : img ≠ "") :
    (∀ mt dt, parseDataUri img = some (mt, dt) →
      generateChapterContentCall topic chapterTitle points tone config (some img) =
        callAI (Prompt.parts [PromptPart.inlineData mt dt,
          PromptPart.text (contentPromptWithImage topic chapterTitle points tone)])
          config none "text/plain" false ∧
      strContains (contentPromptWithImage topic chapterTitle points tone)
        "Analyze the visual data in the image provided" = true) ∧
    (parseDataUri img = none →
      generateChapterContentCall topic chapterTitle points tone config (some img) =
        callAI (Prompt.str (contentPromptWithImage topic chapterTitle points tone))
          config none "text/plain" false) := by
  have htr : optTruthy (some img) = true := by simp [optTruthy, himg]
  constructor
  · intro mt dt hp
    constructor
    · unfold generateChapterContentCall
      rw [htr]
      simp only [if_true, Option.getD_some, hp, contentPromptWithImage]
    · show strContains
        (contentPromptBase topic chapterTitle points tone ++ imageAnalysisInstruction)
        "Analyze the visual data in the image provided" = true
      unfold strContains
      rw [String.data_append]
      exact occursB_append_left _ (by decide)
  · intro hp
    unfold generateChapterContentCall
    rw [htr]
    simp only [if_true, Option.getD_some, hp, contentPromptWithImage]

/-- Witness for C7 at concrete inputs: a well-formed data URI produces the
two-part image-first payload with the analysis instruction in the prompt,
and a malformed image string produces the text-only call. -/
theorem c7_chart_image_branching_witness :
    (generateChapterContentCall "Coffee" "Market Analysis" ["competitor pricing"]
        "formal" cfgGemini (some "data:image/png;base64,iVBORw0KGgo=") =
      callAI (Prompt.parts [PromptPart.inlineData "image/png" "iVBORw0KGgo=",
        PromptPart.text (contentPromptWithImage "Coffee" "Market Analysis"
          ["competitor pricing"] "formal")]) cfgGemini none "text/plain" false ∧
     strContains (contentPromptWithImage "Coffee" "Market Analysis"
       ["competitor pricing"] "formal")
       "Analyze the visual data in the image provided" = true) ∧
    generateChapterContentCall "Coffee" "Market Analysis" ["competitor pricing"]
        "formal" cfgGemini (some "not a data uri") =
      callAI (Prompt.str (contentPromptWithImage "Coffee" "Market Analysis"
        ["competitor pricing"] "formal")) cfgGemini none "text/plain" false := by
  constructor
  · exact (c7_chart_image_branching "Coffee" "Market Analysis" ["competitor pricing"]
      "formal" cfgGemini "data:image/png;base64,iVBORw0KGgo=" (by decide)).1
      "image/png" "iVBORw0KGgo=" rfl
  · exact (c7_chart_image_branching "Coffee" "Market Analysis" ["competitor pricing"]
      "formal" cfgGemini "not a data uri" (by decide)).2 rfl

/-! ## Claim C8 -/

theorem stripFences_data_no_triple (x : String) :
    occursB [tick, tick, tick] (stripFences x).data = false := by
  show occursB [tick, tick, tick]
    (trimList (removeAllL tick [tick, tick] (jsRemoveAll "```json" x).data)) = false
  exact occursB_trimList_false (occursB_triple_removeAll _)

theorem jsTrim_idem (z : String) : jsTrim (jsTrim z) = jsTrim z := by
  show (⟨trimList (trimList z.data)⟩ : String) = ⟨trimList z.data⟩
  rw [trimList_idem]

theorem stripFences_trimmed (x : String) : jsTrim (stripFences x) = stripFences x := by
  show jsTrim (jsTrim (jsRemoveAll "```" (jsRemoveAll "```json" x))) = _
  exact jsTrim_idem _

theorem stripFences_of_trimmed_no_triple (y : String)
    (hy : occursB [tick, tick, tick] y.data = false)
    (ht : jsTrim y = y) : stripFences y = y := by
  have h7 : occursB (tick :: [tick, tick, 'j', 's', 'o', 'n']) y.data = false := by
    have e : (tick :: [tick, tick, 'j', 's', 'o', 'n']) =
        [tick, tick, tick] ++ ['j', 's', 'o', 'n'] := rfl
    rw [e]
    exact occursB_prefix_pat _ hy
  have h3 : occursB (tick :: [tick, tick]) y.data = false := hy
  have e1 : jsRemoveAll "```json" y = y := by
    show (⟨removeAllL tick [tick, tick, 'j', 's', 'o', 'n'] y.data⟩ : String) = y
    rw [removeAllL_id_of_not_occurs tick [tick, tick, 'j', 's', 'o', 'n']
      y.data.length y.data le_rfl h7]
  have e2 : jsRemoveAll "```" y = y := by
    show (⟨removeAllL tick [tick, tick] y.data⟩ : String) = y
    rw [removeAllL_id_of_not_occurs tick [tick, tick] y.data.length y.data le_rfl h3]
  show jsTrim (jsRemoveAll "```" (jsRemoveAll "```json" y)) = y
  rw [e1, e2, ht]

theorem stripFences_wrap (j : String) :
    stripFences ("```json\n" ++ j ++ "\n```") = stripFences j := by
  have hnl7 : ('\n' : Char) ∉ (tick :: [tick, tick, 'j', 's', 'o', 'n']) := by decide
  have hnl3 : ('\n' : Char) ∉ (tick :: [tick, tick]) := by decide
  have hw : ("```json\n" ++ j ++ "\n```").data =
      "```json".data ++ ('\n' :: (j.data ++ ('\n' :: [tick, tick, tick]))) := by
    rw [String.data_append, String.data_append]
    rfl
  have s1 : removeAllL tick [tick, tick, 'j', 's', 'o', 'n']
      (("```json\n" ++ j ++ "\n```").data) =
      '\n' :: ((jsRemoveAll "```json" j).data ++ ('\n' :: [tick, tick, tick])) := by
    rw [hw]
    rw [removeAllL_append_sep tick [tick, tick, 'j', 's', 'o', 'n'] '\n' hnl7
      ("```json".data.length) "```json".data
      (j.data ++ ('\n' :: [tick, tick, tick])) le_rfl]
    rw [removeAllL_append_sep tick [tick, tick, 'j', 's', 'o', 'n'] '\n' hnl7
      (j.data.length) j.data [tick, tick, tick] le_rfl]
    rfl
  have s2 : removeAllL tick [tick, tick]
      ('\n' :: ((jsRemoveAll "```json" j).data ++ ('\n' :: [tick, tick, tick]))) =
      '\n' :: ((jsRemoveAll "```" (jsRemoveAll "```json" j)).data ++ ['\n']) := by
    rw [removeAllL_cons_sep tick [tick, tick] '\n' _ hnl3]
    rw [removeAllL_append_sep tick [tick, tick] '\n' hnl3
      ((jsRemoveAll "```json" j).data.length) (jsRemoveAll "```json" j).data
      [tick, tick, tick] le_rfl]
    rfl
  have hdata : (jsRemoveAll "```" (jsRemoveAll "```json"
      ("```json\n" ++ j ++ "\n```"))).data =
      '\n' :: ((jsRemoveAll "```" (jsRemoveAll "```json" j)).data ++ ['\n']) := by
    show removeAllL tick [tick, tick]
      (removeAllL tick [tick, tick, 'j', 's', 'o', 'n']
        (("```json\n" ++ j ++ "\n```").data)) = _
    rw [s1]
    exact s2
  show (⟨trimList (jsRemoveAll "```" (jsRemoveAll "```json"
      ("```json\n" ++ j ++ "\n```"))).data⟩ : String) =
    ⟨trimList (jsRemoveAll "```" (jsRemoveAll "```json" j)).data⟩
  rw [hdata, trimList_pad]

/-- Claim C8: the markdown code-fence stripping used before JSON parsing
(remove every "```json", then every "```", then trim) is idempotent on
every string; moreover wrapping a text in a ```json fence does not change
the stripped result at all, so parsing after stripping yields the same
value with or without the fence. -/
theorem c8_strip_idempotent_and_fence_invariant (s j : String) :
    stripFences (stripFences s) = stripFences s ∧
    stripFences ("```json\n" ++ j ++ "\n```") = stripFences j ∧
    jsonParse (stripFences ("```json\n" ++ j ++ "\n```")) =
      jsonParse (stripFences j) := by
  refine ⟨stripFences_of_trimmed_no_triple _ (stripFences_data_no_triple s)
    (stripFences_trimmed s), stripFences_wrap j, ?_⟩
  rw [stripFences_wrap j]
